import Mathlib

/-!
Shallow embedding of the wick/vino flow-graph interpreter core and its
schematic validator, for checking the natural-language specification
against the code.

Part I embeds `flow-graph-interpreter/src/interpreter/executor/transaction.rs`:
the per-transaction engine (`Transaction::done`, `emit_done`,
`emit_output_message`, `check_stalled`, `handle_op_err`,
`prime_input_ports`, `accept_input`/`accept_outputs`).  Effects on
collaborators that live outside the embedded file (port buffers of
`InstanceHandler`, the interpreter dispatch channel, the caller's output
sender) are recorded as an explicit trace of `Action`s.

Part II embeds `vino-manifest/src/schematic_definition.rs`
(`ConnectionDefinition`, `ConnectionTargetDefinition`, `process_default`).

Part III embeds `vino-runtime/src/models/validator.rs` (the three
validation phases) over a model of `SchematicModel` whose accessors are
reconstructed from the spec and the validator's own tests.
-/

namespace Wick

/-- Port status of a buffered port
(`operation::port::PortStatus`; transitions per spec §3 invariant 5). -/
inductive PortStatus where
  | Open
  | Closing
  | DoneOpen
  | DoneClosed
deriving DecidableEq, Repr

/-- The kind of a packet: the tagged union of `wick_packet::Packet` payloads
(`Ok` bytes, in-band error, the `done` terminator, `noop`). -/
inductive PacketKind where
  | ok (data : String)
  | err (msg : String)
  | done
  | noop
deriving DecidableEq, Repr

/-- A packet: a port name plus a tagged payload (`wick_packet::Packet`). -/
structure Packet where
  port : String
  kind : PacketKind
deriving DecidableEq, Repr

/-- `wick_packet::PacketError`: the structured error a failing operation
reports. -/
structure PacketError where
  msg : String
deriving DecidableEq, Repr

/-- `Packet::raw_err(port, err)`: an error packet on `port`. -/
def Packet.rawErr (port : String) (e : PacketError) : Packet :=
  ⟨port, .err e.msg⟩

/-- `Packet::done(port)`: the `done` terminator for `port`. -/
def Packet.doneFor (port : String) : Packet :=
  ⟨port, .done⟩

/-- Modelled from the spec: `Packet::component_error` (in `wick-packet`,
not under `src/`) builds an error packet carrying the given message,
surfaced on the reserved component-error port of the output stream
(spec §7: engine errors are materialized as port-level error packets). -/
def Packet.componentError (msg : String) : Packet :=
  ⟨"<error>", .err msg⟩

/-- `Packet::is_done`. -/
def Packet.isDone (p : Packet) : Bool :=
  match p.kind with
  | .done => true
  | _ => false

/-- `Packet::is_noop`. -/
def Packet.isNoop (p : Packet) : Bool :=
  match p.kind with
  | .noop => true
  | _ => false

/-- `flow_graph::PortReference`: a node index plus a port index within
the node. -/
structure PortReference where
  nodeIndex : Nat
  portIndex : Nat
deriving DecidableEq, Repr

/-- One buffered port of an instance: a name, a status and a FIFO queue
(spec §4.C: a port buffer is `(status, queue)`). -/
structure PortBuffer where
  name : String
  status : PortStatus
  queue : List Packet
deriving DecidableEq, Repr

/-- `is_empty` on a port buffer: its queue is empty. -/
def PortBuffer.isEmpty (p : PortBuffer) : Bool :=
  p.queue.isEmpty

/-- Modelled from the spec: the per-node `InstanceHandler`
(`transaction::operation`, not under `src/`).  It owns the node's input
port buffers and the references of its output ports (spec §3
"Instance handler"). -/
structure InstanceHandler where
  nodeIndex : Nat
  inputs : List PortBuffer
  outputRefs : List PortReference
deriving DecidableEq, Repr

instance : Inhabited InstanceHandler := ⟨⟨0, [], []⟩⟩

/-- Modelled from the spec: `InstanceHandler::find_input` resolves a port
name to the `PortReference` of the instance's input port with that name,
failing when no input port matches. -/
def InstanceHandler.findInput (h : InstanceHandler) (name : String) :
    Option PortReference :=
  (h.inputs.findIdx? (fun p => p.name = name)).map
    (fun i => ⟨h.nodeIndex, i⟩)

/-- The immutable view of the schematic a transaction needs: the index of
the output node and the map from a port reference to its name
(`Schematic::output().index()` and `Schematic::get_port_name`). -/
structure SchematicG where
  outputIndex : Nat
  portName : PortReference → String

/-- The observable effects of the transaction engine, recorded as a
trace: buffering a packet into an input or output port, dispatching a
`Data` or `Done` event on the interpreter channel, sending a packet on
the caller's output sender, logging. -/
inductive Action where
  | bufferIn (port : PortReference) (p : Packet)
  | bufferOut (port : PortReference) (p : Packet)
  | dispatchData (port : PortReference)
  | dispatchDone
  | sendOutput (p : Packet)
  | warnDrop (port : String)
  | logError
deriving DecidableEq, Repr

/-- The state of a `Transaction` that the embedded operations read or
write: the schematic, the per-node instance handlers, the `finished`
flag and whether the caller-facing output sender is still held
(`output.0.is_some()`). -/
structure Tx where
  schematic : SchematicG
  instances : List InstanceHandler
  finished : Bool
  senderOpen : Bool

/-- `Transaction::output_handler`: the instance at the schematic's output
index. -/
def Tx.outputHandler (tx : Tx) : InstanceHandler :=
  tx.instances.getD tx.schematic.outputIndex default

/-- `Transaction::instance(index)`. -/
def Tx.instance_ (tx : Tx) (index : Nat) : InstanceHandler :=
  tx.instances.getD index default

/-- `Transaction::done`: every input port of the output handler has
status `DoneClosed` and an empty queue. -/
def Tx.done (tx : Tx) : Bool :=
  tx.outputHandler.inputs.all
    (fun p => p.status == PortStatus.DoneClosed && p.isEmpty)

/-- `Transaction::emit_done`: when the `finished` flag is unset, set it
and dispatch a `Done` event on the interpreter channel; otherwise do
nothing. -/
def Tx.emitDone (tx : Tx) : Tx × List Action :=
  if tx.finished then (tx, [])
  else ({ tx with finished := true }, [Action.dispatchDone])

/-- `Transaction::emit_output_message`: when the output sender is still
held, send every packet on it; otherwise log an error if any packet is
not a `done`.  Afterwards, if the transaction is done, `emit_done`. -/
def Tx.emitOutputMessage (tx : Tx) (packets : List Packet) :
    Tx × List Action :=
  let sendActs : List Action :=
    if tx.senderOpen then packets.map Action.sendOutput
    else if packets.any (fun p => !p.isDone) then [Action.logError]
    else []
  if tx.done then
    let r := tx.emitDone
    (r.1, sendActs ++ r.2)
  else (tx, sendActs)

/-- `TxState`: the result of `check_stalled`. -/
inductive TxState where
  | OutputPending
  | OutputComplete
deriving DecidableEq, Repr

/-- `Transaction::check_stalled`: if the transaction is done, report the
output complete; otherwise emit a synthetic
`component_error("Transaction hung")` on the output stream and report the
output pending. -/
def Tx.checkStalled (tx : Tx) : Tx × List Action × TxState :=
  if tx.done then (tx, [], TxState.OutputComplete)
  else
    let r := tx.emitOutputMessage [Packet.componentError "Transaction hung"]
    (r.1, r.2, TxState.OutputPending)

/-- Modelled from the spec: the engine's stall monitor (the event loop
that calls `check_stalled` is not under `src/`).  Per spec §4.D
"Timeouts / stalls", when the check leaves the output pending the engine
then marks the transaction done. -/
def Tx.handleStall (tx : Tx) : Tx × List Action :=
  let r := tx.checkStalled
  match r.2.2 with
  | TxState.OutputComplete => (r.1, r.2.1)
  | TxState.OutputPending =>
    let d := r.1.emitDone
    (d.1, r.2.1 ++ d.2)

/-- `accept_output`: buffer the packet on the instance's output port and
dispatch a `Data` event for the port. -/
def acceptOutputTrace (port : PortReference) (payload : Packet) :
    List Action :=
  [Action.bufferOut port payload, Action.dispatchData port]

/-- `accept_outputs`: `accept_output` for each packet in order. -/
def acceptOutputsTrace (port : PortReference) (msgs : List Packet) :
    List Action :=
  msgs.flatMap (acceptOutputTrace port)

/-- `Transaction::handle_op_err`: for every output port of the failing
node, push an error packet named after the port followed by a `done` for
the same port, dispatching a `Data` event for each. -/
def Tx.handleOpErr (tx : Tx) (index : Nat) (err : PacketError) :
    List Action :=
  (tx.instance_ index).outputRefs.flatMap (fun port =>
    let downportName := tx.schematic.portName port
    acceptOutputsTrace port
      [Packet.rawErr downportName err, Packet.doneFor downportName])

/-- The trace contributed by one packet read by the input-priming task
(the body of the `while let` loop in `Transaction::prime_input_ports`):
a packet whose port matches an input of the input node is buffered there
with a `Data` event (`accept_input`); otherwise a `noop` packet is
dropped silently and any other packet is dropped with a warning. -/
def primeAction (input : InstanceHandler) (packet : Packet) :
    List Action :=
  match input.findInput packet.port with
  | some port => [Action.bufferIn port packet, Action.dispatchData port]
  | none =>
    if packet.isNoop then []
    else [Action.warnDrop packet.port]

/-- `Transaction::prime_input_ports`: the input-priming task processes
each packet read from the caller's stream in order. -/
def primeInputPorts (input : InstanceHandler) (payloads : List Packet) :
    List Action :=
  payloads.flatMap (primeAction input)

/-- One call into the transaction from the engine, for reasoning about
sequences of `emit_done` / `emit_output_message` invocations. -/
inductive TxCall where
  | emitDone
  | emitOutputMessage (packets : List Packet)

/-- Run one call against the transaction state, returning the new state
and the trace of the call. -/
def Tx.stepCall (tx : Tx) : TxCall → Tx × List Action
  | TxCall.emitDone => tx.emitDone
  | TxCall.emitOutputMessage ps => tx.emitOutputMessage ps

/-- Run a sequence of calls, concatenating their traces. -/
def Tx.runCalls (tx : Tx) : List TxCall → Tx × List Action
  | [] => (tx, [])
  | c :: cs =>
    let s := tx.stepCall c
    let r := s.1.runCalls cs
    (r.1, s.2 ++ r.2)

/-- A call reaches the `done` branch of the transaction: it is an
`emit_done`, or an `emit_output_message` while the transaction is done
(only those calls ever dispatch a `Done` event). -/
def reachesEmitDone (tx : Tx) : TxCall → Prop
  | TxCall.emitDone => True
  | TxCall.emitOutputMessage _ => tx.done = true

/-- Count of `Done` events in a trace. -/
def countDone (acts : List Action) : Nat :=
  acts.countP (fun a => a == Action.dispatchDone)

end Wick

namespace Vino

/-- A JSON value (`serde_json::Value`; numbers collapsed to integers,
which is all the embedded code ever inspects). -/
inductive JsonValue where
  | null
  | bool (b : Bool)
  | num (n : Int)
  | str (s : String)
  | arr (xs : List JsonValue)
  | obj (fields : List (String × JsonValue))
deriving Repr

/-- `vino_manifest::schematic_definition::PortReference`: an instance
name plus a port name. -/
structure PortRef where
  instanceName : String
  port : String
deriving DecidableEq, Repr

/-- `ConnectionTargetDefinition`: a wrapper around an optional
`PortReference`. -/
structure ConnectionTargetDefinition where
  target : Option PortRef
deriving DecidableEq, Repr

/-- `ConnectionTargetDefinition::new`. -/
def CTD (instanceName port : String) : ConnectionTargetDefinition :=
  ⟨some ⟨instanceName, port⟩⟩

/-- `ConnectionTargetDefinition::none`. -/
def CTDnone : ConnectionTargetDefinition := ⟨none⟩

/-- `ConnectionTargetDefinition::is_none`. -/
def ConnectionTargetDefinition.isNone
    (t : ConnectionTargetDefinition) : Bool :=
  t.target.isNone

/-- `ConnectionTargetDefinition::matches_reference` (named
`matches_instance` in later manifest versions): the target exists and
its instance name equals the reference. -/
def ConnectionTargetDefinition.matchesReference
    (t : ConnectionTargetDefinition) (reference : String) : Bool :=
  match t.target with
  | none => false
  | some p => p.instanceName == reference

/-- `ConnectionTargetDefinition::matches_port`. -/
def ConnectionTargetDefinition.matchesPort
    (t : ConnectionTargetDefinition) (port : String) : Bool :=
  match t.target with
  | none => false
  | some p => p.port == port

/-- `ConnectionTargetDefinition::get_reference`: the instance name, or
the `"<None>"` placeholder for an absent target. -/
def ConnectionTargetDefinition.getReference
    (t : ConnectionTargetDefinition) : String :=
  match t.target with
  | none => "<None>"
  | some p => p.instanceName

/-- The reserved instance name of the schematic input node. -/
def SCHEMATIC_INPUT : String := "<input>"

/-- The reserved instance name of the schematic output node. -/
def SCHEMATIC_OUTPUT : String := "<output>"

/-- `ConnectionDefinition`: an upstream target, a downstream target and
an optional default JSON value used when the upstream errors. -/
structure ConnectionDefinition where
  from_ : ConnectionTargetDefinition
  to_ : ConnectionTargetDefinition
  default : Option JsonValue
deriving Repr

/-- `ConnectionDefinition::has_default`. -/
def ConnectionDefinition.hasDefault (c : ConnectionDefinition) : Bool :=
  c.default.isSome

/-- `vino_manifest::Error`, restricted to the variants the embedded code
produces. -/
inductive ManifestError where
  | NoDefault (conn : ConnectionDefinition)
  | DefaultsError (from_ to_ : ConnectionTargetDefinition) (msg : String)
deriving Repr

/-- Modelled from the spec: the placeholder token standing for the
triggering error's message inside a default JSON value
(`crate::default` is not under `src/`; spec §9 models defaults as "a
literal tree whose leaves may be errorMessage placeholders, evaluated
against the triggering error"). -/
def errorPlaceholder : String := "$ERROR"

mutual
/-- Modelled from the spec: `crate::default::process_default` (not under
`src/`) substitutes the error message for every placeholder leaf of the
default JSON tree, leaving all other leaves untouched. -/
def processDefaultJson (err : String) : JsonValue → JsonValue
  | JsonValue.null => JsonValue.null
  | JsonValue.bool b => JsonValue.bool b
  | JsonValue.num n => JsonValue.num n
  | JsonValue.str s =>
    JsonValue.str (if s = errorPlaceholder then err else s)
  | JsonValue.arr xs => JsonValue.arr (processDefaultList err xs)
  | JsonValue.obj fs => JsonValue.obj (processDefaultFields err fs)

/-- Placeholder substitution over a list of JSON values. -/
def processDefaultList (err : String) : List JsonValue → List JsonValue
  | [] => []
  | x :: xs => processDefaultJson err x :: processDefaultList err xs

/-- Placeholder substitution over the fields of a JSON object. -/
def processDefaultFields (err : String) :
    List (String × JsonValue) → List (String × JsonValue)
  | [] => []
  | (k, v) :: fs => (k, processDefaultJson err v) :: processDefaultFields err fs
end

/-- `ConnectionDefinition::process_default`: fail with `NoDefault` when
the connection carries no default, otherwise substitute the error
message into the default value. -/
def ConnectionDefinition.processDefault (c : ConnectionDefinition)
    (err : String) : Except ManifestError JsonValue :=
  match c.default with
  | none => Except.error (ManifestError.NoDefault c)
  | some json => Except.ok (processDefaultJson err json)

/-- Modelled from the spec (§4.D "Defaults"): when an upstream port
delivers an error packet with message `err` over an edge, the payload
enqueued on the downstream port is the edge's default with the message
substituted in — and only when the edge carries a default (the
forwarding code lives in the interpreter, outside `src/`). -/
def enqueuedOnError (c : ConnectionDefinition) (err : String) :
    Option JsonValue :=
  if c.hasDefault then (c.processDefault err).toOption else none

/-- `vino_rpc::PortSignature`: a port name and its declared type. -/
structure PortSignature where
  name : String
  typeString : String
deriving DecidableEq, Repr

/-- `ComponentDefinition`: the operation reference an instance points
at (name, namespace, fully qualified id). -/
structure ComponentDefinition where
  name : String
  namespace_ : String
  id : String
deriving DecidableEq, Repr

/-- `ComponentModel`: the resolved signature of an operation. -/
structure ComponentModel where
  namespace_ : String
  name : String
  inputs : List PortSignature
  outputs : List PortSignature
deriving DecidableEq, Repr

/-- `ValidationError` (`vino-runtime`), restricted to the variants the
embedded validator produces.  `ComponentModelNotFound` stands for the
schematic-model lookup error that `get_component_model_by_ref` reports
and the validator converts with `.into()`. -/
inductive ValidationError where
  | NoInputs
  | NoOutputs
  | NotFullyQualified (ids : List String)
  | DanglingReference (refs : List String)
  | MissingComponentModels (xs : List String)
  | ComponentModelNotFound (reference : String)
  | InvalidInputPort (port : ConnectionTargetDefinition)
      (conn : ConnectionDefinition) (ports : List PortSignature)
  | InvalidOutputPort (port : ConnectionTargetDefinition)
      (conn : ConnectionDefinition) (ports : List PortSignature)
  | InvalidConnections (errs : List ValidationError)
  | EarlyError (name : String) (errs : List ValidationError)
  | PostInitError (name : String) (errs : List ValidationError)
deriving Repr

/-- Modelled from the spec and the validator's own tests:
`SchematicModel` (not under `src/`).  It holds the schematic's name, the
instance map, the connection list and the component models committed so
far (keyed by fully qualified id). -/
structure SchematicModel where
  name : String
  instances : List (String × ComponentDefinition)
  connections : List ConnectionDefinition
  componentModels : List (String × ComponentModel)

/-- `SchematicModel::get_name`. -/
def SchematicModel.getName (m : SchematicModel) : String := m.name

/-- `SchematicModel::get_connections`. -/
def SchematicModel.getConnections (m : SchematicModel) :
    List ConnectionDefinition :=
  m.connections

/-- Modelled from the spec: `SchematicModel::get_component_definition`
looks an instance name up in the instance map. -/
def SchematicModel.getComponentDefinition (m : SchematicModel)
    (reference : String) : Option ComponentDefinition :=
  (m.instances.find? (fun e => e.1 == reference)).map (fun e => e.2)

/-- Modelled from the spec: `SchematicModel::get_references` lists the
declared instance names. -/
def SchematicModel.getReferences (m : SchematicModel) : List String :=
  m.instances.map (fun e => e.1)

/-- Modelled from the spec: `SchematicModel::get_component_definitions`
lists the declared component definitions. -/
def SchematicModel.getComponentDefinitions (m : SchematicModel) :
    List ComponentDefinition :=
  m.instances.map (fun e => e.2)

/-- Modelled from the spec: `SchematicModel::get_component_model` looks
a fully qualified id up among the committed component models. -/
def SchematicModel.getComponentModel (m : SchematicModel) (id : String) :
    Option ComponentModel :=
  (m.componentModels.find? (fun e => e.1 == id)).map (fun e => e.2)

/-- Modelled from the spec: `SchematicModel::get_component_model_by_ref`
resolves an instance name to its definition and then to the committed
model for the definition's id, failing when either lookup misses. -/
def SchematicModel.getComponentModelByRef (m : SchematicModel)
    (reference : String) : Except ValidationError ComponentModel :=
  match m.getComponentDefinition reference with
  | none => Except.error (ValidationError.ComponentModelNotFound reference)
  | some d =>
    match m.getComponentModel d.id with
    | none => Except.error (ValidationError.ComponentModelNotFound reference)
    | some cm => Except.ok cm

/-- Modelled from the spec: `SchematicModel::get_schematic_outputs`
lists the downstream targets of the connections into the schematic
output node (the output node's input ports). -/
def SchematicModel.getSchematicOutputs (m : SchematicModel) :
    List ConnectionTargetDefinition :=
  (m.connections.filter
      (fun c => c.to_.matchesReference SCHEMATIC_OUTPUT)).map
    (fun c => c.to_)

/-- Modelled from the spec: `SchematicModel::get_upstream_connection`
finds the connection whose downstream target is the given port. -/
def SchematicModel.getUpstreamConnection (m : SchematicModel)
    (port : ConnectionTargetDefinition) : Option ConnectionDefinition :=
  m.connections.find? (fun c => c.to_ == port)

/-- Modelled from the spec:
`SchematicModel::get_upstream_connections_by_reference` lists the
connections whose downstream target is a port of the given instance. -/
def SchematicModel.getUpstreamConnectionsByReference (m : SchematicModel)
    (reference : String) : List ConnectionDefinition :=
  m.connections.filter (fun c => c.to_.matchesReference reference)

/-- Modelled from the spec and its tests: `vino_manifest::parse::parse_id`
(not under `src/`) splits a fully qualified id `namespace::name` at
`::`; it fails when the id lacks a namespace or a name part.  This
predicate records whether the parse succeeds. -/
def parseIdOk (id : String) : Bool :=
  let parts := id.splitOn "::"
  decide (parts.length ≥ 2) && parts.all (fun p => p ≠ "")

/-- The `Validator` struct: the model under validation plus the
namespaces omitted from the late checks. -/
structure ValidatorS where
  model : SchematicModel
  omitNamespaces : List String

/-- `should_omit`: the namespace appears in the omit list. -/
def shouldOmit (ns : String) (list : List String) : Bool :=
  (list.find? (fun name => name == ns)).isSome

/-- `Validator::should_omit_def`. -/
def ValidatorS.shouldOmitDef (v : ValidatorS)
    (d : ComponentDefinition) : Bool :=
  shouldOmit d.namespace_ v.omitNamespaces

/-- `Validator::should_omit_ref`: resolve the reference to its
definition and omit based on the definition's namespace; an unresolved
reference is never omitted. -/
def ValidatorS.shouldOmitRef (v : ValidatorS) (reference : String) : Bool :=
  match v.model.getComponentDefinition reference with
  | none => false
  | some d => v.shouldOmitDef d

/-- The dangling entries one connection's upstream side contributes in
`assert_no_dangling_references`: the upstream reference, unless it
resolves, the connection has a default, or the upstream is the schematic
input. -/
def danglingFrom (m : SchematicModel) (conn : ConnectionDefinition) :
    List String :=
  if (m.getComponentDefinition conn.from_.getReference).isNone
      && !conn.hasDefault
      && !conn.from_.matchesReference SCHEMATIC_INPUT then
    [conn.from_.getReference]
  else []

/-- The dangling entries one connection's downstream side contributes in
`assert_no_dangling_references`: the downstream reference, unless it
resolves or is the schematic output. -/
def danglingTo (m : SchematicModel) (conn : ConnectionDefinition) :
    List String :=
  if (m.getComponentDefinition conn.to_.getReference).isNone
      && !conn.to_.matchesReference SCHEMATIC_OUTPUT then
    [conn.to_.getReference]
  else []

/-- `Validator::assert_no_dangling_references`: collect every
unresolvable connection endpoint across all connections. -/
def ValidatorS.assertNoDanglingReferences (v : ValidatorS) :
    Except ValidationError Unit :=
  let dangling := v.model.getConnections.flatMap
    (fun conn => danglingFrom v.model conn ++ danglingTo v.model conn)
  if dangling.isEmpty then Except.ok ()
  else Except.error (ValidationError.DanglingReference dangling)

/-- `is_valid_input`: the connection's downstream port must exist on the
downstream component model. -/
def isValidInput (connection : ConnectionDefinition)
    (toModel : ComponentModel) : Except ValidationError Unit :=
  if toModel.inputs.any (fun port => connection.to_.matchesPort port.name) then
    Except.ok ()
  else
    Except.error (ValidationError.InvalidInputPort connection.to_
      connection toModel.inputs)

/-- `is_valid_output`: the connection's upstream port must exist on the
upstream component model. -/
def isValidOutput (connection : ConnectionDefinition)
    (from_ : ComponentModel) : Except ValidationError Unit :=
  if from_.outputs.any (fun port => connection.from_.matchesPort port.name) then
    Except.ok ()
  else
    Except.error (ValidationError.InvalidOutputPort connection.from_
      connection from_.outputs)

/-- The errors one connection contributes in `assert_ports_used`: the
upstream port is checked against its model unless the upstream is the
schematic input (a missing model is reported unless the connection has a
default or the reference is omitted); symmetrically for the downstream
side, without the default exemption. -/
def portsUsedErrs (v : ValidatorS) (connection : ConnectionDefinition) :
    List ValidationError :=
  let fromErrs :=
    if connection.from_.matchesReference SCHEMATIC_INPUT then []
    else
      match v.model.getComponentModelByRef connection.from_.getReference with
      | Except.ok from_ =>
        match isValidOutput connection from_ with
        | Except.ok _ => []
        | Except.error e => [e]
      | Except.error e =>
        if !connection.hasDefault
            && !(v.shouldOmitRef connection.from_.getReference) then [e]
        else []
  let toErrs :=
    if connection.to_.matchesReference SCHEMATIC_OUTPUT then []
    else
      match v.model.getComponentModelByRef connection.to_.getReference with
      | Except.ok to_ =>
        match isValidInput connection to_ with
        | Except.ok _ => []
        | Except.error e => [e]
      | Except.error e =>
        if !(v.shouldOmitRef connection.to_.getReference) then [e]
        else []
  fromErrs ++ toErrs

/-- `Validator::assert_ports_used`: collect every invalid connection
port across all connections. -/
def ValidatorS.assertPortsUsed (v : ValidatorS) :
    Except ValidationError Unit :=
  let errors := v.model.getConnections.flatMap (portsUsedErrs v)
  if errors.isEmpty then Except.ok ()
  else Except.error (ValidationError.InvalidConnections errors)

/-- The closure of `assert_component_models` for one reference: format
the reference when its operation has no committed model and its
namespace is not omitted (the reference always resolves, since it is
drawn from the instance map). -/
def missingEntry (v : ValidatorS) (r : String) : Option String :=
  match v.model.getComponentDefinition r with
  | none => none
  | some d =>
    if (v.model.getComponentModel d.id).isNone && !(v.shouldOmitDef d)
    then some (r ++ "=>" ++ d.id)
    else none

/-- `Validator::assert_component_models`: collect every declared
instance whose operation has no committed model and whose namespace is
not omitted. -/
def ValidatorS.assertComponentModels (v : ValidatorS) :
    Except ValidationError Unit :=
  let missing := v.model.getReferences.filterMap (missingEntry v)
  if missing.isEmpty then Except.ok ()
  else Except.error (ValidationError.MissingComponentModels missing)

/-- `Validator::assert_early_schematic_outputs`: the output node must
have at least one input. -/
def ValidatorS.assertEarlySchematicOutputs (v : ValidatorS) :
    Except ValidationError Unit :=
  if v.model.getSchematicOutputs.isEmpty then
    Except.error ValidationError.NoOutputs
  else Except.ok ()

/-- `Validator::assert_early_qualified_names`: every instance's id must
parse as `namespace::name`. -/
def ValidatorS.assertEarlyQualifiedNames (v : ValidatorS) :
    Except ValidationError Unit :=
  let errors := v.model.getComponentDefinitions.filterMap (fun d =>
    if parseIdOk d.id then none else some d.id)
  if errors.isEmpty then Except.ok ()
  else Except.error (ValidationError.NotFullyQualified errors)

/-- The sequential `for` loop inside
`validate_port_has_upstream_input`: try each upstream connection in
order, returning at the first success; `none` propagates an exhausted
recursion depth. -/
def anyUpstreamValidates
    (f : ConnectionTargetDefinition → Option Bool) :
    List ConnectionDefinition → Option Bool
  | [] => some false
  | conn :: rest =>
    match f conn.to_ with
    | none => none
    | some true => some true
    | some false => anyUpstreamValidates f rest

/-- `Validator::validate_port_has_upstream_input`, with an explicit
recursion-depth budget.  The Rust function recurses along upstream
connections with no cycle detection; a result of `none` records that the
given depth was exhausted without the call returning. -/
def ValidatorS.validatePortHasUpstreamInput (v : ValidatorS) :
    Nat → ConnectionTargetDefinition → Option Bool
  | 0, _ => none
  | fuel + 1, port =>
    match v.model.getUpstreamConnection port with
    | none => some false
    | some connection =>
      let connectedToSchematicInput :=
        connection.from_.matchesReference SCHEMATIC_INPUT
      let hasDefault := connection.from_.isNone && connection.hasDefault
      if connectedToSchematicInput || hasDefault then some true
      else
        anyUpstreamValidates (v.validatePortHasUpstreamInput fuel)
          (v.model.getUpstreamConnectionsByReference
            connection.from_.getReference)

/-- The `for` loop inside `assert_early_schematic_inputs`: fail with
`NoInputs` at the first output port with no reachable input. -/
def checkOutputPorts (f : ConnectionTargetDefinition → Option Bool) :
    List ConnectionTargetDefinition →
    Option (Except ValidationError Unit)
  | [] => some (Except.ok ())
  | port :: rest =>
    match f port with
    | none => none
    | some false => some (Except.error ValidationError.NoInputs)
    | some true => checkOutputPorts f rest

/-- `Validator::assert_early_schematic_inputs`: every input port of the
output node must be transitively reachable from the schematic input or
from a default. -/
def ValidatorS.assertEarlySchematicInputs (v : ValidatorS) (fuel : Nat) :
    Option (Except ValidationError Unit) :=
  checkOutputPorts (v.validatePortHasUpstreamInput fuel)
    v.model.getSchematicOutputs

/-- The error of a check result, if any. -/
def errOf : Except ValidationError Unit → Option ValidationError
  | Except.ok _ => none
  | Except.error e => some e

/-- `Validator::validate_early_errors`: run the four early checks and
collect every failure into one `EarlyError`; `none` records that the
reachability check's recursion depth was exhausted. -/
def validateEarlyErrors (m : SchematicModel) (fuel : Nat) :
    Option (Except ValidationError Unit) :=
  let v : ValidatorS := ⟨m, ["self"]⟩
  match v.assertEarlySchematicInputs fuel with
  | none => none
  | some r1 =>
    let results := ([r1,
      v.assertEarlySchematicOutputs,
      v.assertEarlyQualifiedNames,
      v.assertNoDanglingReferences]).filterMap errOf
    some (if results.isEmpty then Except.ok ()
      else Except.error (ValidationError.EarlyError m.getName results))

/-- The shared body of the two post-initialization phases: run the two
late checks and collect their failures. -/
def postInitResults (v : ValidatorS) : List ValidationError :=
  ([v.assertComponentModels, v.assertPortsUsed]).filterMap errOf

/-- `Validator::validate_late_errors`: the post-initialization checks
with the `self` namespace omitted. -/
def validateLateErrors (m : SchematicModel) :
    Except ValidationError Unit :=
  let v : ValidatorS := ⟨m, ["self"]⟩
  let results := postInitResults v
  if results.isEmpty then Except.ok ()
  else Except.error (ValidationError.PostInitError m.getName results)

/-- `Validator::validate_final_errors`: the post-initialization checks
with no namespace omitted. -/
def validateFinalErrors (m : SchematicModel) :
    Except ValidationError Unit :=
  let v : ValidatorS := ⟨m, []⟩
  let results := postInitResults v
  if results.isEmpty then Except.ok ()
  else Except.error (ValidationError.PostInitError m.getName results)

end Vino

namespace Wick

/-- A two-node transaction state whose output node still has an open,
empty input port: not done, sender held, not finished. -/
def txPending : Tx :=
  { schematic := ⟨1, fun _ => "output"⟩,
    instances :=
      [⟨0, [⟨"input", PortStatus.Open, []⟩], [⟨0, 0⟩]⟩,
       ⟨1, [⟨"output", PortStatus.Open, []⟩], []⟩],
    finished := false,
    senderOpen := true }

/-- A two-node transaction state whose output node's only input port is
`DoneClosed` and empty: done. -/
def txDone : Tx :=
  { schematic := ⟨1, fun _ => "output"⟩,
    instances :=
      [⟨0, [⟨"input", PortStatus.DoneClosed, []⟩], [⟨0, 0⟩]⟩,
       ⟨1, [⟨"output", PortStatus.DoneClosed, []⟩], []⟩],
    finished := false,
    senderOpen := true }

/-- The input-node instance of `txPending`, used to exercise the
input-priming task: one input port named `input`. -/
def exInputNode : InstanceHandler :=
  ⟨0, [⟨"input", PortStatus.Open, []⟩], [⟨0, 0⟩]⟩

end Wick

namespace Vino

/-- The connection of the dangling-reference scenario:
`dangling1.output => <output>.output`. -/
def danglingConn : ConnectionDefinition :=
  ⟨CTD "dangling1" "output", CTD "<output>" "output", none⟩

/-- The dangling-reference schematic model: no instances, one connection
from an undeclared instance into the schematic output. -/
def danglingModel : SchematicModel :=
  ⟨"Test", [], [danglingConn], []⟩

/-- A schematic model whose connections form a cycle upstream of the
output port: `A.output => B.input`, `B.output => A.input`,
`A.output => <output>.output`. -/
def cyclicModel : SchematicModel :=
  ⟨"Test",
   [("A", ⟨"comp_a", "test", "test::comp_a"⟩),
    ("B", ⟨"comp_b", "test", "test::comp_b"⟩)],
   [⟨CTD "A" "output", CTD "B" "input", none⟩,
    ⟨CTD "B" "output", CTD "A" "input", none⟩,
    ⟨CTD "A" "output", CTD "<output>" "output", none⟩],
   []⟩

/-- The connection of the no-upstream scenario: no upstream target at
all, a default, into the schematic output. -/
def noUpstreamConn : ConnectionDefinition :=
  ⟨CTDnone, CTD "<output>" "output",
   some (JsonValue.str "Default string")⟩

/-- The no-upstream schematic model (`test_no_upstream`): its only
connection has no upstream instance but carries a default. -/
def noUpstreamModel : SchematicModel :=
  ⟨"Test", [], [noUpstreamConn], []⟩

/-- The connection of the self-reference scenario:
`s.output => <output>.output`. -/
def selfConn : ConnectionDefinition :=
  ⟨CTD "s" "output", CTD "<output>" "output", none⟩

/-- A schematic model that refers only to the `self` namespace, with the
self signature committed — but committed with no output ports. -/
def selfRefModel : SchematicModel :=
  ⟨"Test",
   [("s", ⟨"child", "self", "self::child"⟩)],
   [selfConn],
   [("self::child", ⟨"self", "child", [], []⟩)]⟩

/-- The same self-referential schematic model before the self signature
is committed. -/
def selfRefUncommitted : SchematicModel :=
  ⟨"Test",
   [("s", ⟨"child", "self", "self::child"⟩)],
   [selfConn],
   []⟩

/-- A connection whose default is the error-message placeholder, used to
exercise default substitution. -/
def defaultConn : ConnectionDefinition :=
  ⟨CTD "fail" "output", CTD "<output>" "output",
   some (JsonValue.str errorPlaceholder)⟩

/-- The same connection without a default. -/
def noDefaultConn : ConnectionDefinition :=
  ⟨CTD "fail" "output", CTD "<output>" "output", none⟩

end Vino

/-! ## Theorems -/

/-- C7: `validate_early_errors` collects failures from all four early
checks instead of stopping at the first — whenever the reachability
check fails with `NoInputs` and the dangling check fails with
`DanglingReference ds`, both errors appear in one `EarlyError` — and on
the schematic whose only connection is `dangling1.output =>
<output>.output` the result is exactly
`EarlyError "Test" [NoInputs, DanglingReference ["dangling1"]]`. -/
theorem c7_early_collects :
    (∀ (m : Vino.SchematicModel) (fuel : Nat) (ds : List String),
      (Vino.ValidatorS.mk m ["self"]).assertEarlySchematicInputs fuel =
        some (Except.error Vino.ValidationError.NoInputs) →
      (Vino.ValidatorS.mk m ["self"]).assertNoDanglingReferences =
        Except.error (Vino.ValidationError.DanglingReference ds) →
      ∃ errs, Vino.validateEarlyErrors m fuel =
          some (Except.error
            (Vino.ValidationError.EarlyError m.getName errs)) ∧
        Vino.ValidationError.NoInputs ∈ errs ∧
        Vino.ValidationError.DanglingReference ds ∈ errs) ∧
    Vino.validateEarlyErrors Vino.danglingModel 5 =
      some (Except.error (Vino.ValidationError.EarlyError "Test"
        [Vino.ValidationError.NoInputs,
         Vino.ValidationError.DanglingReference ["dangling1"]])) := by
  constructor
  · intro m fuel ds h1 h2
    have hmem1 : Vino.ValidationError.NoInputs ∈
        ([Except.error Vino.ValidationError.NoInputs,
          (Vino.ValidatorS.mk m ["self"]).assertEarlySchematicOutputs,
          (Vino.ValidatorS.mk m ["self"]).assertEarlyQualifiedNames,
          Except.error (Vino.ValidationError.DanglingReference ds)
          ].filterMap Vino.errOf) :=
      List.mem_filterMap.mpr
        ⟨Except.error Vino.ValidationError.NoInputs, by simp, rfl⟩
    have hmem2 : Vino.ValidationError.DanglingReference ds ∈
        ([Except.error Vino.ValidationError.NoInputs,
          (Vino.ValidatorS.mk m ["self"]).assertEarlySchematicOutputs,
          (Vino.ValidatorS.mk m ["self"]).assertEarlyQualifiedNames,
          Except.error (Vino.ValidationError.DanglingReference ds)
          ].filterMap Vino.errOf) :=
      List.mem_filterMap.mpr
        ⟨Except.error (Vino.ValidationError.DanglingReference ds),
         by simp, rfl⟩
    refine ⟨_, ?_, hmem1, hmem2⟩
    simp only [Vino.validateEarlyErrors, h1, h2]
    have hne : ([Except.error Vino.ValidationError.NoInputs,
        (Vino.ValidatorS.mk m ["self"]).assertEarlySchematicOutputs,
        (Vino.ValidatorS.mk m ["self"]).assertEarlyQualifiedNames,
        Except.error (Vino.ValidationError.DanglingReference ds)
        ].filterMap Vino.errOf).isEmpty = false := by
      cases hL : ([Except.error Vino.ValidationError.NoInputs,
          (Vino.ValidatorS.mk m ["self"]).assertEarlySchematicOutputs,
          (Vino.ValidatorS.mk m ["self"]).assertEarlyQualifiedNames,
          Except.error (Vino.ValidationError.DanglingReference ds)
          ].filterMap Vino.errOf) with
      | nil => rw [hL] at hmem1; simp at hmem1
      | cons a as => rfl
    rw [hne]
    rfl
  · rfl

/-- Witness for C7: the dangling-reference schematic at recursion depth
5 discharges both hypotheses and shows both errors collected. -/
theorem c7_early_collects_witness :
    ∃ errs, Vino.validateEarlyErrors Vino.danglingModel 5 =
        some (Except.error (Vino.ValidationError.EarlyError
          Vino.danglingModel.getName errs)) ∧
      Vino.ValidationError.NoInputs ∈ errs ∧
      Vino.ValidationError.DanglingReference ["dangling1"] ∈ errs :=
  c7_early_collects.1 Vino.danglingModel 5 ["dangling1"] rfl rfl

/-- Both ports of the two-node cycle in `cyclicModel` exhaust any
recursion depth: the upstream-reachability recursion never returns on
either of them. -/
theorem c9_cycle_stuck : ∀ n : Nat,
    (Vino.ValidatorS.mk Vino.cyclicModel
        ["self"]).validatePortHasUpstreamInput n (Vino.CTD "A" "input")
      = none ∧
    (Vino.ValidatorS.mk Vino.cyclicModel
        ["self"]).validatePortHasUpstreamInput n (Vino.CTD "B" "input")
      = none := by
  intro n
  induction n with
  | zero => exact ⟨rfl, rfl⟩
  | succ n ih =>
    constructor
    · rw [show (Vino.ValidatorS.mk Vino.cyclicModel
          ["self"]).validatePortHasUpstreamInput (n + 1)
            (Vino.CTD "A" "input") =
          (match (Vino.ValidatorS.mk Vino.cyclicModel
              ["self"]).validatePortHasUpstreamInput n
                (Vino.CTD "B" "input") with
           | none => none
           | some true => some true
           | some false => some false) from rfl]
      rw [ih.2]
    · rw [show (Vino.ValidatorS.mk Vino.cyclicModel
          ["self"]).validatePortHasUpstreamInput (n + 1)
            (Vino.CTD "B" "input") =
          (match (Vino.ValidatorS.mk Vino.cyclicModel
              ["self"]).validatePortHasUpstreamInput n
                (Vino.CTD "A" "input") with
           | none => none
           | some true => some true
           | some false => some false) from rfl]
      rw [ih.1]

/-- C9: on the cyclic schematic, `validate_early_errors` exhausts every
recursion depth — the reachability recursion of
`validate_port_has_upstream_input` follows the `A => B => A` cycle with
no cycle detection and never returns, so the validator does not
terminate on this input. -/
theorem c9_early_validation_diverges : ∀ fuel : Nat,
    Vino.validateEarlyErrors Vino.cyclicModel fuel = none := by
  intro fuel
  have hout : (Vino.ValidatorS.mk Vino.cyclicModel
      ["self"]).validatePortHasUpstreamInput fuel
        (Vino.CTD "<output>" "output") = none := by
    cases fuel with
    | zero => rfl
    | succ n =>
      rw [show (Vino.ValidatorS.mk Vino.cyclicModel
          ["self"]).validatePortHasUpstreamInput (n + 1)
            (Vino.CTD "<output>" "output") =
          (match (Vino.ValidatorS.mk Vino.cyclicModel
              ["self"]).validatePortHasUpstreamInput n
                (Vino.CTD "A" "input") with
           | none => none
           | some true => some true
           | some false => some false) from rfl]
      rw [(c9_cycle_stuck n).1]
  have hin : (Vino.ValidatorS.mk Vino.cyclicModel
      ["self"]).assertEarlySchematicInputs fuel = none := by
    rw [show (Vino.ValidatorS.mk Vino.cyclicModel
        ["self"]).assertEarlySchematicInputs fuel =
        (match (Vino.ValidatorS.mk Vino.cyclicModel
            ["self"]).validatePortHasUpstreamInput fuel
              (Vino.CTD "<output>" "output") with
         | none => none
         | some false => some (Except.error Vino.ValidationError.NoInputs)
         | some true => some (Except.ok ())) from rfl]
    rw [hout]
  simp only [Vino.validateEarlyErrors, hin]

/-- A definition found by reference lookup is one of the model's
declared component definitions. -/
theorem getComponentDefinition_mem (m : Vino.SchematicModel) (r : String)
    (d : Vino.ComponentDefinition)
    (h : m.getComponentDefinition r = some d) :
    d ∈ m.getComponentDefinitions := by
  simp only [Vino.SchematicModel.getComponentDefinition] at h
  obtain ⟨e, he, hfe⟩ := Option.map_eq_some'.mp h
  subst hfe
  exact List.mem_map.mpr ⟨e, List.mem_of_find?_eq_some he, rfl⟩

/-- An empty omit list omits nothing. -/
theorem shouldOmit_nil (ns : String) : Vino.shouldOmit ns [] = false := rfl

/-- The omit list `["self"]` omits exactly the namespace `self`. -/
theorem shouldOmit_self (ns : String) :
    Vino.shouldOmit ns ["self"] = (ns == "self") := by
  by_cases h : ns = "self"
  · subst h; rfl
  · have h2 : ("self" == ns) = false := by
      simp only [beq_eq_false_iff_ne, ne_eq]
      exact fun e => h e.symm
    have h3 : (ns == "self") = false := by
      simp only [beq_eq_false_iff_ne, ne_eq]
      exact h
    simp [Vino.shouldOmit, List.find?, h2, h3]

/-- On a model with no `self`-namespace instances, omitting `["self"]`
and omitting nothing agree on every reference. -/
theorem shouldOmitRef_eq_of_no_self (m : Vino.SchematicModel)
    (hns : ∀ d ∈ m.getComponentDefinitions, d.namespace_ ≠ "self")
    (r : String) :
    (Vino.ValidatorS.mk m ["self"]).shouldOmitRef r =
      (Vino.ValidatorS.mk m []).shouldOmitRef r := by
  simp only [Vino.ValidatorS.shouldOmitRef]
  cases h : m.getComponentDefinition r with
  | none => rfl
  | some d =>
    have hd := hns d (getComponentDefinition_mem m r d h)
    simp only [Vino.ValidatorS.shouldOmitDef, shouldOmit_self,
      shouldOmit_nil]
    simp [hd]

/-- On a model with no `self`-namespace instances, the missing-model
closure is independent of the `["self"]` omit list. -/
theorem missingEntry_eq_of_no_self (m : Vino.SchematicModel)
    (hns : ∀ d ∈ m.getComponentDefinitions, d.namespace_ ≠ "self")
    (r : String) :
    Vino.missingEntry (Vino.ValidatorS.mk m ["self"]) r =
      Vino.missingEntry (Vino.ValidatorS.mk m []) r := by
  simp only [Vino.missingEntry]
  cases h : m.getComponentDefinition r with
  | none => rfl
  | some d =>
    have hd := hns d (getComponentDefinition_mem m r d h)
    simp only [Vino.ValidatorS.shouldOmitDef, shouldOmit_self,
      shouldOmit_nil]
    simp [hd]

/-- On a model with no `self`-namespace instances, the per-connection
port check is independent of the `["self"]` omit list. -/
theorem portsUsedErrs_eq_of_no_self (m : Vino.SchematicModel)
    (hns : ∀ d ∈ m.getComponentDefinitions, d.namespace_ ≠ "self")
    (conn : Vino.ConnectionDefinition) :
    Vino.portsUsedErrs (Vino.ValidatorS.mk m ["self"]) conn =
      Vino.portsUsedErrs (Vino.ValidatorS.mk m []) conn := by
  simp only [Vino.portsUsedErrs, shouldOmitRef_eq_of_no_self m hns]

/-- C8 counterexample: a schematic referring only to the `self`
namespace does not always pass late validation once the self signature
is committed — with the committed signature lacking the used output
port, `validate_late_errors` still checks the port and fails. -/
theorem c8_counterexample :
    Vino.validateLateErrors Vino.selfRefModel ≠ Except.ok () ∧
    Vino.validateLateErrors Vino.selfRefModel =
      Except.error (Vino.ValidationError.PostInitError "Test"
        [Vino.ValidationError.InvalidConnections
          [Vino.ValidationError.InvalidOutputPort (Vino.CTD "s" "output")
            Vino.selfConn []]]) := by
  constructor
  · intro h
    have he : Vino.validateLateErrors Vino.selfRefModel =
        Except.error (Vino.ValidationError.PostInitError "Test"
          [Vino.ValidationError.InvalidConnections
            [Vino.ValidationError.InvalidOutputPort (Vino.CTD "s" "output")
              Vino.selfConn []]]) := rfl
    rw [he] at h
    exact Except.noConfusion h
  · rfl

/-- C8 (amended): `validate_late_errors` and `validate_final_errors`
run the same two checks and differ only in the omitted-namespace list,
so they agree on every model with no `self`-namespace instances; and a
schematic referring only to `self` passes late validation while the
self signature is uncommitted (once committed, the port checks still
apply, per the counterexample). -/
theorem c8_late_final (mdl : Vino.SchematicModel) :
    ((∀ d ∈ mdl.getComponentDefinitions, d.namespace_ ≠ "self") →
      Vino.validateLateErrors mdl = Vino.validateFinalErrors mdl) ∧
    ((∀ d ∈ mdl.getComponentDefinitions, d.namespace_ = "self") →
      (∀ d ∈ mdl.getComponentDefinitions,
        mdl.getComponentModel d.id = none) →
      (∀ conn ∈ mdl.getConnections,
        (conn.from_.matchesReference Vino.SCHEMATIC_INPUT = false →
          (mdl.getComponentDefinition conn.from_.getReference).isSome
            = true) ∧
        (conn.to_.matchesReference Vino.SCHEMATIC_OUTPUT = false →
          (mdl.getComponentDefinition conn.to_.getReference).isSome
            = true)) →
      Vino.validateLateErrors mdl = Except.ok ()) := by
  constructor
  · intro hns
    have hf1 : Vino.missingEntry (Vino.ValidatorS.mk mdl ["self"]) =
        Vino.missingEntry (Vino.ValidatorS.mk mdl []) :=
      funext (missingEntry_eq_of_no_self mdl hns)
    have hf2 : Vino.portsUsedErrs (Vino.ValidatorS.mk mdl ["self"]) =
        Vino.portsUsedErrs (Vino.ValidatorS.mk mdl []) :=
      funext (portsUsedErrs_eq_of_no_self mdl hns)
    simp only [Vino.validateLateErrors, Vino.validateFinalErrors,
      Vino.postInitResults, Vino.ValidatorS.assertComponentModels,
      Vino.ValidatorS.assertPortsUsed, hf1, hf2]
  · intro hself hnomodel hresolve
    have hcm : (Vino.ValidatorS.mk mdl ["self"]).assertComponentModels =
        Except.ok () := by
      simp only [Vino.ValidatorS.assertComponentModels]
      have hmissing : mdl.getReferences.filterMap
          (Vino.missingEntry (Vino.ValidatorS.mk mdl ["self"])) = [] := by
        rw [List.filterMap_eq_nil_iff]
        intro r _
        simp only [Vino.missingEntry]
        cases h : mdl.getComponentDefinition r with
        | none => rfl
        | some d =>
          have hd := hself d (getComponentDefinition_mem mdl r d h)
          simp [Vino.ValidatorS.shouldOmitDef, shouldOmit_self, hd]
      rw [hmissing]
      rfl
    have hpu : (Vino.ValidatorS.mk mdl ["self"]).assertPortsUsed =
        Except.ok () := by
      simp only [Vino.ValidatorS.assertPortsUsed]
      have herrs : mdl.getConnections.flatMap
          (Vino.portsUsedErrs (Vino.ValidatorS.mk mdl ["self"])) = [] := by
        rw [List.flatMap_eq_nil_iff]
        intro conn hconn
        have hres := hresolve conn hconn
        simp only [Vino.portsUsedErrs]
        have hfromSide : (if conn.from_.matchesReference Vino.SCHEMATIC_INPUT
              then ([] : List Vino.ValidationError)
            else
              match mdl.getComponentModelByRef conn.from_.getReference with
              | Except.ok from_ =>
                match Vino.isValidOutput conn from_ with
                | Except.ok _ => []
                | Except.error e => [e]
              | Except.error e =>
                if !conn.hasDefault
                    && !((Vino.ValidatorS.mk
                      mdl ["self"]).shouldOmitRef conn.from_.getReference)
                then [e] else []) = [] := by
          cases hin : conn.from_.matchesReference Vino.SCHEMATIC_INPUT with
          | true => simp
          | false =>
            simp only [Bool.false_eq_true, if_false]
            obtain ⟨d, hd⟩ :=
              Option.isSome_iff_exists.mp (hres.1 hin)
            have hdmem := getComponentDefinition_mem mdl _ d hd
            have hns := hself d hdmem
            have hmod := hnomodel d hdmem
            rw [show mdl.getComponentModelByRef conn.from_.getReference =
                Except.error (Vino.ValidationError.ComponentModelNotFound
                  conn.from_.getReference) from by
              simp only [Vino.SchematicModel.getComponentModelByRef, hd,
                hmod]]
            have homit : (Vino.ValidatorS.mk
                mdl ["self"]).shouldOmitRef conn.from_.getReference
                  = true := by
              simp only [Vino.ValidatorS.shouldOmitRef, hd,
                Vino.ValidatorS.shouldOmitDef, shouldOmit_self, hns]
              rfl
            simp [homit]
        have htoSide : (if conn.to_.matchesReference Vino.SCHEMATIC_OUTPUT
              then ([] : List Vino.ValidationError)
            else
              match mdl.getComponentModelByRef conn.to_.getReference with
              | Except.ok toModel =>
                match Vino.isValidInput conn toModel with
                | Except.ok _ => []
                | Except.error e => [e]
              | Except.error e =>
                if !((Vino.ValidatorS.mk
                    mdl ["self"]).shouldOmitRef conn.to_.getReference)
                then [e] else []) = [] := by
          cases hout : conn.to_.matchesReference Vino.SCHEMATIC_OUTPUT with
          | true => simp
          | false =>
            simp only [Bool.false_eq_true, if_false]
            obtain ⟨d, hd⟩ :=
              Option.isSome_iff_exists.mp (hres.2 hout)
            have hdmem := getComponentDefinition_mem mdl _ d hd
            have hns := hself d hdmem
            have hmod := hnomodel d hdmem
            rw [show mdl.getComponentModelByRef conn.to_.getReference =
                Except.error (Vino.ValidationError.ComponentModelNotFound
                  conn.to_.getReference) from by
              simp only [Vino.SchematicModel.getComponentModelByRef, hd,
                hmod]]
            have homit : (Vino.ValidatorS.mk
                mdl ["self"]).shouldOmitRef conn.to_.getReference
                  = true := by
              simp only [Vino.ValidatorS.shouldOmitRef, hd,
                Vino.ValidatorS.shouldOmitDef, shouldOmit_self, hns]
              rfl
            simp [homit]
        rw [hfromSide, htoSide]
        rfl
      rw [herrs]
      rfl
    simp only [Vino.validateLateErrors, Vino.postInitResults, hcm, hpu]
    rfl

/-- Witness for C8: the two phases agree on a model with no `self`
instances, and the uncommitted self-referential model passes late
validation. -/
theorem c8_late_final_witness :
    Vino.validateLateErrors Vino.danglingModel =
      Vino.validateFinalErrors Vino.danglingModel ∧
    Vino.validateLateErrors Vino.selfRefUncommitted = Except.ok () :=
  ⟨(c8_late_final Vino.danglingModel).1 (by decide),
   (c8_late_final Vino.selfRefUncommitted).2 (by decide) (by decide)
     (by decide)⟩

/-- C10: the dangling-reference check never reports a connection's
upstream target when the connection carries a default or the upstream
is the schematic input, never reports a downstream target that is the
schematic output, and the schematic whose only connection has no
upstream instance but a default passes early validation entirely. -/
theorem c10_dangling_exemptions :
    (∀ (m : Vino.SchematicModel) (conn : Vino.ConnectionDefinition),
      conn.hasDefault = true ∨
        conn.from_.matchesReference Vino.SCHEMATIC_INPUT = true →
      Vino.danglingFrom m conn = []) ∧
    (∀ (m : Vino.SchematicModel) (conn : Vino.ConnectionDefinition),
      conn.to_.matchesReference Vino.SCHEMATIC_OUTPUT = true →
      Vino.danglingTo m conn = []) ∧
    Vino.validateEarlyErrors Vino.noUpstreamModel 5 =
      some (Except.ok ()) := by
  refine ⟨?_, ?_, rfl⟩
  · intro m conn h
    rcases h with h | h <;> simp [Vino.danglingFrom, h]
  · intro m conn h
    simp [Vino.danglingTo, h]

/-- Witness for C10: on the no-upstream connection (default present,
downstream is the schematic output) neither side is reported and early
validation succeeds. -/
theorem c10_dangling_exemptions_witness :
    Vino.danglingFrom Vino.noUpstreamModel Vino.noUpstreamConn = [] ∧
    Vino.danglingTo Vino.noUpstreamModel Vino.noUpstreamConn = [] ∧
    Vino.validateEarlyErrors Vino.noUpstreamModel 5 =
      some (Except.ok ()) :=
  ⟨c10_dangling_exemptions.1 Vino.noUpstreamModel Vino.noUpstreamConn
     (Or.inl rfl),
   c10_dangling_exemptions.2.1 Vino.noUpstreamModel Vino.noUpstreamConn
     rfl,
   c10_dangling_exemptions.2.2⟩

/-- C1: `Transaction::done` returns true iff every input port of the
output-node instance has status `DoneClosed` and an empty queue; a
transaction is done under exactly this condition and no other. -/
theorem c1_done_iff (tx : Wick.Tx) :
    tx.done = true ↔
      ∀ p ∈ tx.outputHandler.inputs,
        p.status = Wick.PortStatus.DoneClosed ∧ p.queue = [] := by
  simp [Wick.Tx.done, List.all_eq_true, Wick.PortBuffer.isEmpty,
    Bool.and_eq_true, beq_iff_eq, List.isEmpty_iff]

/-- Witness for C1 at a concrete transaction whose output-node inputs
are all `DoneClosed` and empty. -/
theorem c1_done_iff_witness : Wick.txDone.done = true :=
  (c1_done_iff Wick.txDone).mpr (by decide)

/-- A trace with no `dispatchDone` action has `countDone` zero. -/
theorem countDone_eq_zero_of_no_done (acts : List Wick.Action)
    (h : ∀ a ∈ acts, a ≠ Wick.Action.dispatchDone) :
    Wick.countDone acts = 0 := by
  simp only [Wick.countDone, List.countP_eq_zero]
  intro a ha
  simp [h a ha]

/-- `countDone` distributes over trace concatenation. -/
theorem countDone_append (a b : List Wick.Action) :
    Wick.countDone (a ++ b) = Wick.countDone a + Wick.countDone b := by
  simp [Wick.countDone, List.countP_append]

/-- The packets sent by `emit_output_message` before its completion check
contribute no `Done` dispatch. -/
theorem countDone_sendActs (tx : Wick.Tx) (ps : List Wick.Packet) :
    Wick.countDone (if tx.senderOpen then ps.map Wick.Action.sendOutput
      else if ps.any (fun p => !p.isDone) then [Wick.Action.logError]
      else []) = 0 := by
  apply countDone_eq_zero_of_no_done
  intro a ha
  split at ha
  · obtain ⟨p, _, rfl⟩ := List.mem_map.mp ha
    simp
  · split at ha
    · simp at ha
      subst ha
      simp
    · simp at ha

/-- A call on a transaction whose `finished` flag is already set leaves
the state unchanged and dispatches no `Done` event. -/
theorem stepCall_of_finished (tx : Wick.Tx) (c : Wick.TxCall)
    (h : tx.finished = true) :
    (tx.stepCall c).1 = tx ∧ Wick.countDone (tx.stepCall c).2 = 0 := by
  cases c with
  | emitDone =>
    simp [Wick.Tx.stepCall, Wick.Tx.emitDone, h]
    rfl
  | emitOutputMessage ps =>
    simp only [Wick.Tx.stepCall, Wick.Tx.emitOutputMessage]
    by_cases hd : tx.done = true
    · simp only [hd, if_true, Wick.Tx.emitDone, h]
      refine ⟨by simp, ?_⟩
      simpa using countDone_sendActs tx ps
    · simp only [Bool.not_eq_true] at hd
      simp only [hd, Bool.false_eq_true, if_false]
      refine ⟨by simp, ?_⟩
      simpa using countDone_sendActs tx ps

/-- Once the `finished` flag is set, any further sequence of calls
leaves the transaction unchanged and dispatches no `Done` event. -/
theorem runCalls_of_finished (ops : List Wick.TxCall) :
    ∀ tx : Wick.Tx, tx.finished = true →
      (tx.runCalls ops).1 = tx ∧ Wick.countDone (tx.runCalls ops).2 = 0 := by
  induction ops with
  | nil => exact fun tx _ => ⟨rfl, rfl⟩
  | cons c cs ih =>
    intro tx h
    have h1 := stepCall_of_finished tx c h
    simp only [Wick.Tx.runCalls]
    rw [h1.1]
    have h2 := ih tx h
    refine ⟨h2.1, ?_⟩
    rw [countDone_append, h1.2, h2.2]

/-- A call in whose course the done branch is reached, on a transaction
with the `finished` flag unset, sets the flag and dispatches exactly one
`Done` event, at the end of its trace. -/
theorem stepCall_dispatches (tx : Wick.Tx) (c : Wick.TxCall)
    (hfin : tx.finished = false) (hq : Wick.reachesEmitDone tx c) :
    ∃ pre, tx.stepCall c =
        ({tx with finished := true}, pre ++ [Wick.Action.dispatchDone]) ∧
      Wick.countDone pre = 0 := by
  cases c with
  | emitDone =>
    exact ⟨[], by simp [Wick.Tx.stepCall, Wick.Tx.emitDone, hfin], rfl⟩
  | emitOutputMessage ps =>
    have hdone : tx.done = true := hq
    refine ⟨if tx.senderOpen then ps.map Wick.Action.sendOutput
      else if ps.any (fun p => !p.isDone) then [Wick.Action.logError]
      else [], ?_, countDone_sendActs tx ps⟩
    simp [Wick.Tx.stepCall, Wick.Tx.emitOutputMessage, hdone,
      Wick.Tx.emitDone, hfin]

/-- A call that does not reach the done branch leaves the transaction
state unchanged and dispatches no `Done` event. -/
theorem stepCall_skips (tx : Wick.Tx) (c : Wick.TxCall)
    (hq : ¬Wick.reachesEmitDone tx c) :
    (tx.stepCall c).1 = tx ∧ Wick.countDone (tx.stepCall c).2 = 0 := by
  cases c with
  | emitDone => exact absurd trivial hq
  | emitOutputMessage ps =>
    have hdone : tx.done = false := by
      by_contra h
      exact hq (by simpa [Wick.reachesEmitDone] using h)
    simp only [Wick.Tx.stepCall, Wick.Tx.emitOutputMessage, hdone,
      Bool.false_eq_true, if_false]
    refine ⟨by simp, ?_⟩
    simpa using countDone_sendActs tx ps

/-- Auxiliary induction for C2, quantified over the starting state. -/
theorem c2_aux (ops : List Wick.TxCall) :
    ∀ tx : Wick.Tx, tx.finished = false →
      (∃ c ∈ ops, Wick.reachesEmitDone tx c) →
      Wick.countDone (tx.runCalls ops).2 = 1 ∧
        (tx.runCalls ops).1.finished = true := by
  induction ops with
  | nil =>
    intro tx _ hreach
    simp at hreach
  | cons c cs ih =>
    intro tx hfin hreach
    simp only [Wick.Tx.runCalls]
    by_cases hq : Wick.reachesEmitDone tx c
    · obtain ⟨pre, hstep, hpre⟩ := stepCall_dispatches tx c hfin hq
      rw [hstep]
      have hrest := runCalls_of_finished cs {tx with finished := true} rfl
      refine ⟨?_, by rw [hrest.1]⟩
      rw [countDone_append, hrest.2, countDone_append, hpre]
      rfl
    · have hskip := stepCall_skips tx c hq
      rw [hskip.1]
      have hreach2 : ∃ c2 ∈ cs, Wick.reachesEmitDone tx c2 := by
        obtain ⟨c2, hc2, hr⟩ := hreach
        rcases List.mem_cons.mp hc2 with rfl | hmem
        · exact absurd hr hq
        · exact ⟨c2, hmem, hr⟩
      have h2 := ih tx hfin hreach2
      refine ⟨?_, h2.2⟩
      rw [countDone_append, hskip.2, h2.1]

/-- C2: across any sequence of `emit_done` calls and of
`emit_output_message` calls that reach the done state, started with the
`finished` flag unset and at least one call reaching the done branch,
the `Done` event is dispatched exactly once and the flag ends set. -/
theorem c2_emit_done_once (tx : Wick.Tx) (ops : List Wick.TxCall)
    (hfin : tx.finished = false)
    (hreach : ∃ c ∈ ops, Wick.reachesEmitDone tx c) :
    Wick.countDone (tx.runCalls ops).2 = 1 ∧
      (tx.runCalls ops).1.finished = true :=
  c2_aux ops tx hfin hreach

/-- Witness for C2: two consecutive `emit_done` calls on a fresh
transaction dispatch a single `Done` event. -/
theorem c2_emit_done_once_witness :
    Wick.countDone
        (Wick.txPending.runCalls
          [Wick.TxCall.emitDone, Wick.TxCall.emitDone]).2 = 1 ∧
      (Wick.txPending.runCalls
        [Wick.TxCall.emitDone, Wick.TxCall.emitDone]).1.finished = true :=
  c2_emit_done_once Wick.txPending
    [Wick.TxCall.emitDone, Wick.TxCall.emitDone] rfl
    ⟨Wick.TxCall.emitDone, List.mem_cons_self _ _, trivial⟩

/-- C3: on a transaction that is not done (sender still held, finished
flag unset) the stall check emits `component_error("Transaction hung")`
on the output stream and the transaction is then marked done, the error
packet preceding the `Done` dispatch; a transaction that is already done
emits nothing and reports the output complete. -/
theorem c3_check_stalled (tx : Wick.Tx) :
    (tx.done = false → tx.senderOpen = true → tx.finished = false →
      tx.handleStall =
        ({tx with finished := true},
         [Wick.Action.sendOutput (Wick.Packet.componentError "Transaction hung"),
          Wick.Action.dispatchDone])) ∧
    (tx.done = true →
      tx.checkStalled = (tx, [], Wick.TxState.OutputComplete)) := by
  constructor
  · intro hdone hsend hfin
    simp [Wick.Tx.handleStall, Wick.Tx.checkStalled,
      Wick.Tx.emitOutputMessage, Wick.Tx.emitDone, hdone, hsend, hfin]
  · intro hdone
    simp [Wick.Tx.checkStalled, hdone]

/-- Witness for C3: a concrete hung transaction produces the error
packet followed by the `Done` dispatch, and a concrete finished one
reports `OutputComplete` with no emission. -/
theorem c3_check_stalled_witness :
    Wick.txPending.handleStall =
      ({Wick.txPending with finished := true},
       [Wick.Action.sendOutput (Wick.Packet.componentError "Transaction hung"),
        Wick.Action.dispatchDone]) ∧
    Wick.txDone.checkStalled = (Wick.txDone, [], Wick.TxState.OutputComplete) :=
  ⟨(c3_check_stalled Wick.txPending).1 rfl rfl rfl,
   (c3_check_stalled Wick.txDone).2 rfl⟩

/-- C4: `handle_op_err` enqueues, on every output port of the failing
node, exactly an error packet carrying the failure under that port's
name followed by a `done` packet for the same port, dispatching a data
event after each of the two. -/
theorem c4_handle_op_err (tx : Wick.Tx) (index : Nat)
    (err : Wick.PacketError) :
    tx.handleOpErr index err =
      (tx.instance_ index).outputRefs.flatMap (fun port =>
        [Wick.Action.bufferOut port
           (Wick.Packet.rawErr (tx.schematic.portName port) err),
         Wick.Action.dispatchData port,
         Wick.Action.bufferOut port
           (Wick.Packet.doneFor (tx.schematic.portName port)),
         Wick.Action.dispatchData port]) := by
  simp [Wick.Tx.handleOpErr, Wick.acceptOutputsTrace, Wick.acceptOutputTrace]

/-- C5: with a default present, `process_default` substitutes the error
message into the default JSON value, and that substituted value is the
payload enqueued downstream on an upstream error; without a default it
fails with `NoDefault` and nothing is fabricated. -/
theorem c5_process_default (conn : Vino.ConnectionDefinition) (m : String) :
    (∀ d, conn.default = some d →
      conn.processDefault m = Except.ok (Vino.processDefaultJson m d) ∧
      Vino.enqueuedOnError conn m = some (Vino.processDefaultJson m d)) ∧
    (conn.default = none →
      conn.processDefault m =
        Except.error (Vino.ManifestError.NoDefault conn) ∧
      Vino.enqueuedOnError conn m = none) := by
  constructor
  · intro d hd
    refine ⟨?_, ?_⟩
    · simp [Vino.ConnectionDefinition.processDefault, hd]
    · simp [Vino.enqueuedOnError, Vino.ConnectionDefinition.hasDefault, hd,
        Vino.ConnectionDefinition.processDefault, Except.toOption]
  · intro hd
    refine ⟨?_, ?_⟩
    · simp [Vino.ConnectionDefinition.processDefault, hd]
    · simp [Vino.enqueuedOnError, Vino.ConnectionDefinition.hasDefault, hd]

/-- Witness for C5: a default equal to the placeholder becomes the error
message `"boom"`, and the connection without a default fails with
`NoDefault`. -/
theorem c5_process_default_witness :
    Vino.defaultConn.processDefault "boom" =
      Except.ok (Vino.JsonValue.str "boom") ∧
    Vino.enqueuedOnError Vino.defaultConn "boom" =
      some (Vino.JsonValue.str "boom") ∧
    Vino.noDefaultConn.processDefault "boom" =
      Except.error (Vino.ManifestError.NoDefault Vino.noDefaultConn) ∧
    Vino.enqueuedOnError Vino.noDefaultConn "boom" = none := by
  have h1 := (c5_process_default Vino.defaultConn "boom").1
    (Vino.JsonValue.str Vino.errorPlaceholder) rfl
  have h2 := (c5_process_default Vino.noDefaultConn "boom").2 rfl
  exact ⟨h1.1, h1.2, h2.1, h2.2⟩

/-- C6: the input-priming task enqueues a packet (with a data event)
exactly when its port matches an input port of the input node; otherwise
a `noop` packet is dropped silently, any other packet is dropped with a
warning, and no unmatched packet is ever buffered. -/
theorem c6_prime_input (input : Wick.InstanceHandler)
    (payloads : List Wick.Packet) (packet : Wick.Packet) :
    Wick.primeInputPorts input payloads =
      payloads.flatMap (Wick.primeAction input) ∧
    (∀ port, input.findInput packet.port = some port →
      Wick.primeAction input packet =
        [Wick.Action.bufferIn port packet, Wick.Action.dispatchData port]) ∧
    (input.findInput packet.port = none → packet.isNoop = true →
      Wick.primeAction input packet = []) ∧
    (input.findInput packet.port = none → packet.isNoop = false →
      Wick.primeAction input packet = [Wick.Action.warnDrop packet.port]) ∧
    (input.findInput packet.port = none →
      ∀ a ∈ Wick.primeAction input packet,
        ∀ port p, a ≠ Wick.Action.bufferIn port p) := by
  refine ⟨rfl, ?_, ?_, ?_, ?_⟩
  · intro port h
    simp [Wick.primeAction, h]
  · intro h hn
    simp [Wick.primeAction, h, hn]
  · intro h hn
    simp [Wick.primeAction, h, hn]
  · intro h a ha port p
    cases hb : packet.isNoop with
    | true => simp [Wick.primeAction, h, hb] at ha
    | false =>
      simp [Wick.primeAction, h, hb] at ha
      subst ha
      simp

/-- Witness for C6: a matching packet is buffered with a data event, a
`noop` for an unknown port vanishes, and another unknown-port packet is
dropped with a warning. -/
theorem c6_prime_input_witness :
    Wick.primeAction Wick.exInputNode ⟨"input", Wick.PacketKind.ok "hello"⟩ =
      [Wick.Action.bufferIn ⟨0, 0⟩ ⟨"input", Wick.PacketKind.ok "hello"⟩,
       Wick.Action.dispatchData ⟨0, 0⟩] ∧
    Wick.primeAction Wick.exInputNode ⟨"bogus", Wick.PacketKind.noop⟩ = [] ∧
    Wick.primeAction Wick.exInputNode ⟨"bogus", Wick.PacketKind.ok "x"⟩ =
      [Wick.Action.warnDrop "bogus"] :=
  ⟨(c6_prime_input Wick.exInputNode []
      ⟨"input", Wick.PacketKind.ok "hello"⟩).2.1 ⟨0, 0⟩ rfl,
   (c6_prime_input Wick.exInputNode []
      ⟨"bogus", Wick.PacketKind.noop⟩).2.2.1 rfl rfl,
   (c6_prime_input Wick.exInputNode []
      ⟨"bogus", Wick.PacketKind.ok "x"⟩).2.2.2.1 rfl rfl⟩
